import Mathlib

/-!
Shallow embedding of the payment-processor gateway
(repository payment-processor-rinha) and proofs about its behavior.

The embedding follows the current wired variant of the code:
cmd/api/main.go, internal/application/payment/workers/payment.go
(StartPaymentWorker and the mux-based HTTP handlers),
internal/application/payment/processors/health-check.go
(PaymentProcessor with ProcessTask, SummaryPayments, savePayment,
HealthCheck), and the sibling variant internal/worker/worker.go
(StartWorker) where a claim cites it.

Modelling conventions: float64 currency amounts are idealized as
rationals; JSON marshal/unmarshal of well-formed tasks is modelled as an
identity round-trip; the Redis store is an association list with
last-write-wins update; HTTP responses from the provider are supplied as
explicit parameters.
-/

namespace PaymentRinha

/-- Go struct ProcessPaymentTask (tasks package): CorrelationId,
RequestedAt, Amount (float64, idealized as a rational), OnDefault, Tries. -/
structure ProcessPaymentTask where
  CorrelationId : String
  RequestedAt : String
  Amount : ℚ
  OnDefault : Bool
  Tries : Nat
deriving DecidableEq, Repr

/-- Go struct PaymentsSummary: TotalRequests, TotalAmount. -/
structure PaymentsSummary where
  TotalRequests : Nat
  TotalAmount : ℚ
deriving DecidableEq, Repr

/-- Go struct PaymentsSummaryResponse with fields Default and Fallback. -/
structure PaymentsSummaryResponse where
  Default : PaymentsSummary
  Fallback : PaymentsSummary
deriving DecidableEq, Repr

/-- The Go zero value of PaymentsSummaryResponse. -/
def zeroSummaryResponse : PaymentsSummaryResponse := ⟨⟨0, 0⟩, ⟨0, 0⟩⟩

/-- Lookup in an association list; models a Redis GET (first matching key). -/
def lookupKey : List (String × α) → String → Option α
  | [], _ => none
  | (k0, v0) :: rest, k => if k0 = k then some v0 else lookupKey rest k

/-- Last-write-wins update of an association list; models Redis SET on the
kv part and Redis ZADD (update score of an existing member, insert
otherwise) on the sorted-set part. -/
def setKey : List (String × α) → String → α → List (String × α)
  | [], k, v => [(k, v)]
  | (k0, v0) :: rest, k, v =>
      if k0 = k then (k, v) :: rest else (k0, v0) :: setKey rest k v

/-- The Redis state the processor uses: kv holds the PaymentRecords
(values modelled post-decoding) and zset is the single sorted set stored
at key getPaymentsIndexKey, mapping member (record key) to its score
(requestedAt as UnixMilli). -/
structure Store where
  kv : List (String × ProcessPaymentTask)
  zset : List (String × Int)
deriving DecidableEq, Repr

/-- Score filter of ZRANGEBYSCORE with min and max both inclusive. -/
def scoreInRange (fromS toS : Int) (e : String × Int) : Bool :=
  decide (fromS ≤ e.2) && decide (e.2 ≤ toS)

/-- Redis ZRANGEBYSCORE: members whose score lies in the inclusive range,
returned in ascending score order. -/
def zrangebyscore (zset : List (String × Int)) (fromS toS : Int) : List String :=
  (List.insertionSort (fun a b => a.2 ≤ b.2) (zset.filter (scoreInRange fromS toS))).map Prod.fst

/-- Go math.Round: rounds half away from zero to an integral value. -/
def mathRound (x : ℚ) : ℚ :=
  if 0 ≤ x then ((⌊x + 1 / 2⌋ : ℤ) : ℚ) else ((-⌊-x + 1 / 2⌋ : ℤ) : ℚ)

/-- The rounding applied by SummaryPayments to each total:
math.Round(x * 10) / 10, one decimal place. -/
def roundTo1 (x : ℚ) : ℚ := mathRound (x * 10) / 10

/-- The loop body of the fold in SummaryPayments: nil results are
skipped, otherwise the totals keyed by OnDefault are bumped. -/
def summaryStep (acc : PaymentsSummaryResponse) (result : Option ProcessPaymentTask) :
    PaymentsSummaryResponse :=
  match result with
  | none => acc
  | some payment =>
      if payment.OnDefault then
        { acc with Default :=
            ⟨acc.Default.TotalRequests + 1, acc.Default.TotalAmount + payment.Amount⟩ }
      else
        { acc with Fallback :=
            ⟨acc.Fallback.TotalRequests + 1, acc.Fallback.TotalAmount + payment.Amount⟩ }

/-- PaymentProcessor.SummaryPayments (processors/health-check.go):
range-query the index, early-return the zero response when no keys are
found, MGET the records, fold them keyed by OnDefault, then round each
total to one decimal place. -/
def SummaryPayments (st : Store) (fromS toS : Int) : PaymentsSummaryResponse :=
  let keys := zrangebyscore st.zset fromS toS
  if keys = [] then zeroSummaryResponse
  else
    let results := keys.map (lookupKey st.kv)
    let res := results.foldl summaryStep zeroSummaryResponse
    { Default := ⟨res.Default.TotalRequests, roundTo1 res.Default.TotalAmount⟩,
      Fallback := ⟨res.Fallback.TotalRequests, roundTo1 res.Fallback.TotalAmount⟩ }

/-- Spec-side definition (manual fold): the records whose indexed score
lies in the inclusive window, fetched through the index entries in store
order. -/
def specWindowRecords (st : Store) (fromS toS : Int) : List ProcessPaymentTask :=
  (st.zset.filter (scoreInRange fromS toS)).filterMap (fun e => lookupKey st.kv e.1)

/-- Spec-side definition: the manual fold over exactly the records in the
window, one count and one total per provider, each total rounded to one
decimal place. -/
def specSummarize (st : Store) (fromS toS : Int) : PaymentsSummaryResponse :=
  let recs := specWindowRecords st fromS toS
  let defaults := recs.filter (fun r => r.OnDefault)
  let fallbacks := recs.filter (fun r => !r.OnDefault)
  { Default := ⟨defaults.length, roundTo1 ((defaults.map (fun r => r.Amount)).sum)⟩,
    Fallback := ⟨fallbacks.length, roundTo1 ((fallbacks.map (fun r => r.Amount)).sum)⟩ }

example :
    zrangebyscore [("payments:a", 10), ("payments:b", 20), ("payments:c", 30)] 5 25 =
      ["payments:a", "payments:b"] := by decide

example :
    specWindowRecords
      ⟨[("payments:a", ⟨"a", "t", 5, true, 0⟩)], [("payments:a", 10), ("payments:x", 20)]⟩
      0 25 = [⟨"a", "t", 5, true, 0⟩] := by decide

example : roundTo1 (37 / 20 : ℚ) = 19 / 10 := by
  norm_num [roundTo1, mathRound]

example :
    SummaryPayments
      ⟨[("payments:a", ⟨"a", "t", 5, true, 0⟩), ("payments:b", ⟨"b", "t", 7 / 4, false, 0⟩)],
       [("payments:a", 10), ("payments:b", 20)]⟩ 0 25 =
      ⟨⟨1, 5⟩, ⟨1, 9 / 5⟩⟩ := by
  simp +decide [SummaryPayments, zrangebyscore, scoreInRange, lookupKey, summaryStep,
    zeroSummaryResponse, List.insertionSort, List.orderedInsert]
  norm_num [roundTo1, mathRound]

/-- The mutable processor state shared by the workers and the health
refresh (processors/health-check.go): the two provider base URLs from the
environment and the up flag guarded by the RWMutex. -/
structure PaymentProcessor where
  defaultURL : String
  fallbackURL : String
  up : Bool
deriving DecidableEq, Repr

/-- PaymentProcessor.IsUp. -/
def PaymentProcessor.IsUp (p : PaymentProcessor) : Bool := p.up

/-- PaymentProcessor.SetUp. -/
def PaymentProcessor.SetUp (p : PaymentProcessor) (status : Bool) : PaymentProcessor :=
  { p with up := status }

/-- PaymentProcessor.baseURL: defaultURL while up, fallbackURL otherwise. -/
def baseURL (p : PaymentProcessor) : String :=
  if p.IsUp then p.defaultURL else p.fallbackURL

/-- PaymentProcessor.isRetryableError: true exactly for 5xx status codes. -/
def isRetryableError (statusCode : Nat) : Bool := statusCode / 100 == 5

/-- PaymentProcessor.getPaymentKey. -/
def getPaymentKey (correlationId : String) : String := "payments:" ++ correlationId

/-- PaymentProcessor.getPaymentsIndexKey, the Redis key under which
Store.zset lives. -/
def getPaymentsIndexKey : String := "payments:by-date"

/-- PaymentProcessor.savePayment: stamps OnDefault from the current up
flag, then in one transactional pipeline SETs the record under
getPaymentKey and ZADDs an index entry for that key scored by
now.UnixMilli. The pipeline is modelled as the two store updates applied
together; the Redis write is assumed to succeed. -/
def savePayment (p : PaymentProcessor) (nowMillis : Int) (payload : ProcessPaymentTask)
    (st : Store) : Store :=
  let payload := { payload with OnDefault := p.IsUp }
  let k := getPaymentKey payload.CorrelationId
  { kv := setKey st.kv k payload, zset := setKey st.zset k nowMillis }

/-- The outcome of the POST to the provider, supplied to ProcessTask as a
parameter: either a response with a status code or a transport error. -/
inductive HttpResult where
  | resp (statusCode : Nat)
  | transportError
deriving DecidableEq, Repr

/-- How one ProcessTask run ended. The err constructors are the paths on
which ProcessTask returns a non-nil error; saved and ignoredOk return nil. -/
inductive TaskOutcome where
  | saved
  | errTransport
  | errRetryable
  | ignoredOk
deriving DecidableEq, Repr

/-- Whether ProcessTask returned a non-nil error; this is the condition
the worker retry branch checks. -/
def TaskOutcome.erred : TaskOutcome → Bool
  | .saved => false
  | .ignoredOk => false
  | .errTransport => true
  | .errRetryable => true

/-- Everything one ProcessTask run produced. -/
structure ProcessResult where
  outcome : TaskOutcome
  pAfter : PaymentProcessor
  stAfter : Store
  postedURL : String
deriving DecidableEq, Repr

/-- PaymentProcessor.ProcessTask (processors/health-check.go): stamp
RequestedAt with the current time, POST the task to baseURL plus
/payments; on a 5xx status return an error after SetUp false; on status
200 savePayment and return nil; on any other status return nil without
saving. The provider response is a parameter; marshalling is the
identity; savePayment is assumed to succeed. -/
def ProcessTask (p : PaymentProcessor) (st : Store) (nowMillis : Int) (nowRfc : String)
    (task : ProcessPaymentTask) (response : HttpResult) : ProcessResult :=
  let task := { task with RequestedAt := nowRfc }
  let url := baseURL p ++ "/payments"
  match response with
  | .transportError => ⟨.errTransport, p, st, url⟩
  | .resp statusCode =>
      if isRetryableError statusCode then ⟨.errRetryable, p.SetUp false, st, url⟩
      else if statusCode == 200 then ⟨.saved, p, savePayment p nowMillis task st, url⟩
      else ⟨.ignoredOk, p, st, url⟩

/-- A queue element as the workers see it: the raw bytes either decode to
a task or fail to decode. -/
inductive Buff where
  | wellFormed (task : ProcessPaymentTask)
  | malformed (raw : String)
deriving DecidableEq, Repr

/-- json.Unmarshal of a queue element, modelled as an identity round-trip
on well-formed payloads. -/
def decode : Buff → Option ProcessPaymentTask
  | .wellFormed t => some t
  | .malformed _ => none

/-- How one iteration of the StartPaymentWorker loop body ended. -/
inductive IterOutcome where
  | skippedDown
  | panicked
  | done
  | requeued
deriving DecidableEq, Repr

/-- The observable effects of one StartPaymentWorker loop iteration:
final outcome, processor and store afterwards, the URLs POSTed to during
the iteration, and the nanoseconds slept before requeueing. -/
structure IterResult where
  outcome : IterOutcome
  pAfter : PaymentProcessor
  stAfter : Store
  attempts : List String
  waitNanos : Nat
deriving DecidableEq, Repr

/-- The fixed wait of StartPaymentWorker before requeueing a failed task:
2 * time.Second, in nanoseconds. -/
def paymentWorkerFixedWaitNanos : Nat := 2000000000

/-- One iteration of the loop body of StartPaymentWorker
(workers/payment.go) on one dequeued buff: when the processor is not up
the task is skipped entirely (continue); a decode failure panics; a
ProcessTask error leads to a 2 s sleep and a requeue of the original
bytes; otherwise the iteration is done. -/
def paymentWorkerIter (p : PaymentProcessor) (st : Store) (nowMillis : Int) (nowRfc : String)
    (response : HttpResult) (buff : Buff) : IterResult :=
  if !p.IsUp then ⟨.skippedDown, p, st, [], 0⟩
  else
    match decode buff with
    | none => ⟨.panicked, p, st, [], 0⟩
    | some task =>
        let r := ProcessTask p st nowMillis nowRfc task response
        if r.outcome.erred then
          ⟨.requeued, r.pAfter, r.stAfter, [r.postedURL], paymentWorkerFixedWaitNanos⟩
        else ⟨.done, r.pAfter, r.stAfter, [r.postedURL], 0⟩

/-- One dequeue-process cycle of a StartPaymentWorker worker over the
shared queue: the head is consumed and, exactly when ProcessTask erred,
the original bytes are pushed back onto the same shared queue. -/
def paymentWorkerQueueStep (p : PaymentProcessor) (st : Store) (nowMillis : Int)
    (nowRfc : String) (response : HttpResult) (queue : List Buff) :
    PaymentProcessor × Store × List Buff :=
  match queue with
  | [] => (p, st, [])
  | buff :: rest =>
      let r := paymentWorkerIter p st nowMillis nowRfc response buff
      if r.outcome == .requeued then (r.pAfter, r.stAfter, rest ++ [buff])
      else (r.pAfter, r.stAfter, rest)

/-- Iterate paymentWorkerQueueStep a given number of cycles, feeding the
same provider response to every attempt. -/
def paymentWorkerRun (nowMillis : Int) (nowRfc : String) (response : HttpResult) :
    Nat → PaymentProcessor × Store × List Buff → PaymentProcessor × Store × List Buff
  | 0, s => s
  | Nat.succ k, s =>
      paymentWorkerRun nowMillis nowRfc response k
        (paymentWorkerQueueStep s.1 s.2.1 nowMillis nowRfc response s.2.2)

/-- The maxRetries value set by NewPaymentWorker and NewWorker. The
StartPaymentWorker loop never reads the field; the StartWorker loop does. -/
def maxRetries : Nat := 3

/-- The wait StartWorker computes before a requeue:
time.Duration(task.Tries) * time.Second, in nanoseconds. -/
def startWorkerToWaitNanos (tries : Nat) : Nat := tries * 1000000000

/-- How one iteration of the StartWorker loop body ended; requeued
carries the re-marshalled task that re-enters the shared queue. -/
inductive SWOutcome where
  | panicked
  | done
  | requeued (task : ProcessPaymentTask)
  | abandoned
deriving DecidableEq, Repr

/-- The observable effects of one StartWorker loop iteration. -/
structure SWIterResult where
  outcome : SWOutcome
  pAfter : PaymentProcessor
  stAfter : Store
  waitNanos : Nat
deriving DecidableEq, Repr

/-- One iteration of the loop body of StartWorker
(internal/worker/worker.go) on one dequeued buff: no health gate; a
decode failure panics; Tries is incremented before the attempt; on a
ProcessTask error the worker sleeps Tries seconds and then requeues the
re-marshalled task while Tries < maxRetries, else logs and abandons. -/
def startWorkerIter (p : PaymentProcessor) (st : Store) (nowMillis : Int) (nowRfc : String)
    (response : HttpResult) (buff : Buff) : SWIterResult :=
  match decode buff with
  | none => ⟨.panicked, p, st, 0⟩
  | some task0 =>
      let task := { task0 with Tries := task0.Tries + 1 }
      let r := ProcessTask p st nowMillis nowRfc task response
      if r.outcome.erred then
        if task.Tries < maxRetries then
          ⟨.requeued task, r.pAfter, r.stAfter, startWorkerToWaitNanos task.Tries⟩
        else ⟨.abandoned, r.pAfter, r.stAfter, startWorkerToWaitNanos task.Tries⟩
      else ⟨.done, r.pAfter, r.stAfter, 0⟩

/-- The outcome of the GET to the health endpoint as the leader branch of
HealthCheck sees it. -/
inductive HealthProbeResult where
  | ok (failing : Bool)
  | transportError
  | decodeError
deriving DecidableEq, Repr

/-- The Redis key the leader publishes the health boolean under. -/
def HEALTH_CHECK_KEY : String := "health_check"

/-- The URL the HealthCheck leader branch GETs: baseURL plus the health
path, hence dependent on the current up flag. -/
def healthCheckProbeURL (p : PaymentProcessor) : String :=
  baseURL p ++ "/payments/service-health"

/-- PaymentProcessor.HealthCheck (processors/health-check.go). The shared
store value under HEALTH_CHECK_KEY is modelled as an Option Bool. Leader:
on a decoded response, publish and SetUp the negation of failing; on a
transport or decode error, return early changing nothing. Follower: read
the cached value (a missing key reads as false) and SetUp it. Returns the
processor and the cache value afterwards. -/
def HealthCheck (p : PaymentProcessor) (masterInstance : Bool) (cached : Option Bool)
    (probe : HealthProbeResult) : PaymentProcessor × Option Bool :=
  if masterInstance then
    match probe with
    | .ok failing => (p.SetUp (!failing), some (!failing))
    | .transportError => (p, cached)
    | .decodeError => (p, cached)
  else (p.SetUp (cached.getD false), cached)

/-- The Admission Queue: the buffered channel made in main.go
(capacity 10000) together with its capacity. -/
structure Queue where
  capacity : Nat
  buffer : List Buff
deriving DecidableEq, Repr

/-- The non-blocking send the HTTP handler performs on the channel via
select with a default branch: buffered when below capacity, rejected
otherwise. -/
def enqueue (q : Queue) (item : Buff) : Queue × Bool :=
  if q.buffer.length < q.capacity then ({ q with buffer := q.buffer ++ [item] }, true)
  else (q, false)

/-- The POST /payments handler (workers/payment.go, api.Setup): the read
body is offered to the queue; acceptance answers 201 Created, a full
queue answers 503 Service Unavailable. -/
def paymentHandler (q : Queue) (body : Buff) : Queue × Nat :=
  let r := enqueue q body
  if r.2 then (r.1, 201) else (r.1, 503)

example :
    ProcessTask ⟨"d", "f", true⟩ ⟨[], []⟩ 7 "rfc" ⟨"c1", "", 5, false, 0⟩ (.resp 500) =
      ⟨.errRetryable, ⟨"d", "f", false⟩, ⟨[], []⟩, "d/payments"⟩ := by decide

example :
    (ProcessTask ⟨"d", "f", true⟩ ⟨[], []⟩ 7 "rfc" ⟨"c1", "", 5, false, 0⟩ (.resp 200)).stAfter =
      ⟨[("payments:c1", ⟨"c1", "rfc", 5, true, 0⟩)], [("payments:c1", 7)]⟩ := by decide

example :
    (paymentWorkerIter ⟨"d", "f", false⟩ ⟨[], []⟩ 7 "rfc" (.resp 200)
      (.wellFormed ⟨"c1", "", 5, false, 0⟩)).outcome = .skippedDown := by decide

/-- C2: a full Admission Queue rejects the next enqueue immediately (the
handler answers 503), the buffer still holds exactly capacity items, and
in general an offered item is either buffered (appended) or explicitly
rejected with the buffer unchanged, never silently dropped. -/
theorem enqueue_full_rejected_never_drops (q : Queue) (x : Buff)
    (h : q.buffer.length = q.capacity) :
    enqueue q x = (q, false) ∧ (paymentHandler q x).2 = 503 ∧
      (enqueue q x).1.buffer.length = q.capacity ∧
      (∀ q2 : Queue, ∀ y : Buff,
        ((enqueue q2 y).2 = true ∧ (enqueue q2 y).1.buffer = q2.buffer ++ [y]) ∨
        ((enqueue q2 y).2 = false ∧ (enqueue q2 y).1 = q2)) := by
  have hfull : ¬ q.buffer.length < q.capacity := by omega
  refine ⟨?_, ?_, ?_, ?_⟩
  · simp [enqueue, hfull]
  · simp [paymentHandler, enqueue, hfull]
  · simp [enqueue, hfull, h]
  · intro q2 y
    by_cases h2 : q2.buffer.length < q2.capacity
    · exact Or.inl (by simp [enqueue, h2])
    · exact Or.inr (by simp [enqueue, h2])

/-- C2 witness: the theorem applied to a queue of capacity 2 already
holding 2 items. -/
theorem enqueue_full_rejected_never_drops_witness :
    (Queue.mk 2 [.malformed "a", .malformed "b"]).buffer.length =
        (Queue.mk 2 [.malformed "a", .malformed "b"]).capacity ∧
      (enqueue (Queue.mk 2 [.malformed "a", .malformed "b"]) (.malformed "c") =
          (Queue.mk 2 [.malformed "a", .malformed "b"], false) ∧
        (paymentHandler (Queue.mk 2 [.malformed "a", .malformed "b"]) (.malformed "c")).2 = 503 ∧
        (enqueue (Queue.mk 2 [.malformed "a", .malformed "b"]) (.malformed "c")).1.buffer.length =
          (Queue.mk 2 [.malformed "a", .malformed "b"]).capacity ∧
        (∀ q2 : Queue, ∀ y : Buff,
          ((enqueue q2 y).2 = true ∧ (enqueue q2 y).1.buffer = q2.buffer ++ [y]) ∨
          ((enqueue q2 y).2 = false ∧ (enqueue q2 y).1 = q2))) :=
  ⟨by decide,
    enqueue_full_rejected_never_drops (Queue.mk 2 [.malformed "a", .malformed "b"])
      (.malformed "c") (by decide)⟩

/-- C3 counterexample: with the health state DOWN, the wired worker
(StartPaymentWorker) consumes the dequeued task and makes no delivery
attempt at all: the attempt list is empty and the iteration outcome is
skippedDown, while the claim requires a full delivery cycle targeting
the fallback URL. -/
theorem routing_down_worker_skips_cx :
    (paymentWorkerIter ⟨"http://default", "http://fallback", false⟩ ⟨[], []⟩ 0 "t" (.resp 200)
        (.wellFormed ⟨"cid", "", 5, false, 0⟩)).attempts = [] ∧
    (paymentWorkerIter ⟨"http://default", "http://fallback", false⟩ ⟨[], []⟩ 0 "t" (.resp 200)
        (.wellFormed ⟨"cid", "", 5, false, 0⟩)).outcome = .skippedDown := by decide

/-- C3 (amended): at every delivery attempt the Provider Client target
URL is the default URL when the shared health state is UP and the
fallback URL when it is DOWN, re-evaluated per attempt; but a worker that
dequeues a task while the state is DOWN does not run the delivery cycle:
it skips the task entirely, making no attempt, so the fallback routing
applies only to attempts actually made inside ProcessTask. -/
theorem routing_per_attempt_but_down_skips (p : PaymentProcessor) (st : Store)
    (nowMillis : Int) (nowRfc : String) (response : HttpResult) (buff : Buff) :
    (p.up = true → baseURL p = p.defaultURL) ∧
    (p.up = false → baseURL p = p.fallbackURL) ∧
    (p.up = false →
      paymentWorkerIter p st nowMillis nowRfc response buff = ⟨.skippedDown, p, st, [], 0⟩) ∧
    (∀ task, (ProcessTask p st nowMillis nowRfc task response).postedURL =
      baseURL p ++ "/payments") := by
  refine ⟨?_, ?_, ?_, ?_⟩
  · intro h; simp [baseURL, PaymentProcessor.IsUp, h]
  · intro h; simp [baseURL, PaymentProcessor.IsUp, h]
  · intro h; simp [paymentWorkerIter, PaymentProcessor.IsUp, h]
  · intro task
    cases response with
    | transportError => rfl
    | resp s =>
        simp only [ProcessTask]
        split
        · rfl
        · split <;> rfl

/-- C3 witness: the amended theorem applied at a concrete DOWN processor. -/
theorem routing_per_attempt_but_down_skips_witness :
    PaymentProcessor.up ⟨"http://d", "http://f", false⟩ = false ∧
      baseURL ⟨"http://d", "http://f", false⟩ = PaymentProcessor.fallbackURL ⟨"http://d", "http://f", false⟩ :=
  ⟨by decide,
    (routing_per_attempt_but_down_skips ⟨"http://d", "http://f", false⟩ ⟨[], []⟩ 0 "t"
      (.resp 200) (.malformed "x")).2.1 (by decide)⟩

/-- C4 counterexample: a 201 response (a 2xx status) does not lead to
persisting: ProcessTask leaves the store untouched, no record appears
under the payment key, and the outcome is not saved; moreover a 404
response produces no error, so the outer loop does not retry it, against
the claim that any other non-2xx status stays governed by the retry
loop. -/
theorem processTask_2xx_cx :
    (ProcessTask ⟨"d", "f", true⟩ ⟨[], []⟩ 7 "r" ⟨"c1", "", 5, false, 0⟩ (.resp 201)).outcome ≠
        .saved ∧
    (ProcessTask ⟨"d", "f", true⟩ ⟨[], []⟩ 7 "r" ⟨"c1", "", 5, false, 0⟩ (.resp 201)).stAfter =
        ⟨[], []⟩ ∧
    lookupKey
        (ProcessTask ⟨"d", "f", true⟩ ⟨[], []⟩ 7 "r" ⟨"c1", "", 5, false, 0⟩
            (.resp 201)).stAfter.kv (getPaymentKey "c1") = none ∧
    (ProcessTask ⟨"d", "f", true⟩ ⟨[], []⟩ 7 "r" ⟨"c1", "", 5, false, 0⟩
        (.resp 404)).outcome.erred = false := by decide

/-- C4 (amended): per delivery attempt, exactly a 200 status leads to
persisting the payment record (returning no error); a 5xx status returns
a retryable error, which the outer loop retries, and additionally sets
the shared health flag to DOWN; a transport error returns an error and is
retried; every other status, including non-200 2xx codes and 4xx codes,
returns no error and leads to neither persistence nor retry. -/
theorem processTask_status_classification (p : PaymentProcessor) (st : Store)
    (nowMillis : Int) (nowRfc : String) (task : ProcessPaymentTask) (s : Nat) :
    (isRetryableError s = true →
      ProcessTask p st nowMillis nowRfc task (.resp s) =
          ⟨.errRetryable, p.SetUp false, st, baseURL p ++ "/payments"⟩ ∧
        TaskOutcome.erred .errRetryable = true) ∧
    (s = 200 →
      ProcessTask p st nowMillis nowRfc task (.resp s) =
          ⟨.saved, p, savePayment p nowMillis { task with RequestedAt := nowRfc } st,
            baseURL p ++ "/payments"⟩ ∧
        TaskOutcome.erred .saved = false) ∧
    (isRetryableError s = false → s ≠ 200 →
      ProcessTask p st nowMillis nowRfc task (.resp s) =
          ⟨.ignoredOk, p, st, baseURL p ++ "/payments"⟩ ∧
        TaskOutcome.erred .ignoredOk = false) ∧
    (ProcessTask p st nowMillis nowRfc task .transportError =
        ⟨.errTransport, p, st, baseURL p ++ "/payments"⟩ ∧
      TaskOutcome.erred .errTransport = true) := by
  refine ⟨?_, ?_, ?_, ?_⟩
  · intro h; simp [ProcessTask, h, TaskOutcome.erred]
  · intro h; subst h; simp [ProcessTask, isRetryableError, TaskOutcome.erred]
  · intro h1 h2; simp [ProcessTask, h1, h2, TaskOutcome.erred]
  · simp [ProcessTask, TaskOutcome.erred]

/-- C4 witness: the amended theorem applied at a 503 response. -/
theorem processTask_status_classification_witness :
    isRetryableError 503 = true ∧
      (ProcessTask ⟨"d", "f", true⟩ ⟨[], []⟩ 7 "r" ⟨"c1", "", 5, false, 0⟩ (.resp 503) =
          ⟨.errRetryable, PaymentProcessor.SetUp ⟨"d", "f", true⟩ false, ⟨[], []⟩,
            baseURL ⟨"d", "f", true⟩ ++ "/payments"⟩ ∧
        TaskOutcome.erred .errRetryable = true) :=
  ⟨by decide,
    (processTask_status_classification ⟨"d", "f", true⟩ ⟨[], []⟩ 7 "r" ⟨"c1", "", 5, false, 0⟩
      503).1 (by decide)⟩

/-- C5: evaluation of the wired StartPaymentWorker loop at an
always-failing task: across any number of cycles the failed task is
requeued unchanged on the shared queue, its Tries field never increments
(it stays at whatever value it had, even one far above maxRetries), and
the task is never abandoned, contradicting the bounded, strictly
increasing attempt count the claim and the unused maxRetries field
intend. -/
theorem paymentWorker_requeues_forever_tries_unchanged (p : PaymentProcessor)
    (hup : p.up = true) (st : Store) (nowMillis : Int) (nowRfc : String)
    (task : ProcessPaymentTask) (k : Nat) :
    paymentWorkerRun nowMillis nowRfc .transportError k (p, st, [.wellFormed task]) =
      (p, st, [.wellFormed task]) := by
  induction k with
  | zero => rfl
  | succ n ih =>
      have hstep :
          paymentWorkerQueueStep p st nowMillis nowRfc .transportError [.wellFormed task] =
            (p, st, [.wellFormed task]) := by
        simp [paymentWorkerQueueStep, paymentWorkerIter, PaymentProcessor.IsUp, hup, decode,
          ProcessTask, TaskOutcome.erred]
      simp only [paymentWorkerRun, hstep]
      exact ih

/-- C5 witness: five cycles on a task whose Tries is already 10, far
above maxRetries, with the provider unreachable at every attempt. -/
theorem paymentWorker_requeues_forever_tries_unchanged_witness :
    PaymentProcessor.up ⟨"d", "f", true⟩ = true ∧
      paymentWorkerRun 0 "t" .transportError 5
          (⟨"d", "f", true⟩, ⟨[], []⟩, [.wellFormed ⟨"c1", "", 5, false, 10⟩]) =
        (⟨"d", "f", true⟩, ⟨[], []⟩, [.wellFormed ⟨"c1", "", 5, false, 10⟩]) :=
  ⟨by decide,
    paymentWorker_requeues_forever_tries_unchanged ⟨"d", "f", true⟩ (by decide) ⟨[], []⟩ 0 "t"
      ⟨"c1", "", 5, false, 10⟩ 5⟩

/-- C6 counterexample: no baseDelay and jitterMax at all can make the
code wait fit the claimed exponential window, because the StartWorker
wait grows linearly (Tries seconds): the lower bound forces baseDelay to
vanish against large attempt numbers, and then no finite jitter bound
covers an unbounded linear wait. -/
theorem backoff_not_exponential_cx :
    ¬ ∃ baseDelay jitterMax : ℕ, ∀ n, 1 ≤ n →
        baseDelay * 2 ^ (n - 1) ≤ startWorkerToWaitNanos n ∧
        startWorkerToWaitNanos n < baseDelay * 2 ^ (n - 1) + jitterMax := by
  rintro ⟨b, j, h⟩
  rcases Nat.eq_zero_or_pos b with hb | hb
  · have h1 := (h (j + 1) (by omega)).2
    subst hb
    simp [startWorkerToWaitNanos] at h1
    omega
  · have h41 := (h 41 (by omega)).1
    have hble : (2 : ℕ) ^ (41 - 1) ≤ b * 2 ^ (41 - 1) := Nat.le_mul_of_pos_left _ hb
    have hpow : (2 : ℕ) ^ (41 - 1) = 1099511627776 := by norm_num
    simp [startWorkerToWaitNanos] at h41
    omega

/-- C6 (amended): the retry waits are deterministic with no jitter: the
StartWorker variant waits Tries seconds, a linear schedule whose
deterministic component increases by exactly one second per attempt and
is therefore monotone, while the wired StartPaymentWorker waits a fixed
2 seconds for every retry. -/
theorem backoff_linear_monotone (n : Nat) :
    startWorkerToWaitNanos (n + 1) = startWorkerToWaitNanos n + 1000000000 ∧
    startWorkerToWaitNanos n ≤ startWorkerToWaitNanos (n + 1) ∧
    (∀ p st nowMillis nowRfc task,
      (startWorkerIter p st nowMillis nowRfc .transportError (.wellFormed task)).waitNanos =
        startWorkerToWaitNanos (task.Tries + 1)) ∧
    (∀ p : PaymentProcessor, ∀ st nowMillis nowRfc task, p.up = true →
      (paymentWorkerIter p st nowMillis nowRfc .transportError (.wellFormed task)).waitNanos =
        paymentWorkerFixedWaitNanos) := by
  refine ⟨?_, ?_, ?_, ?_⟩
  · show (n + 1) * 1000000000 = n * 1000000000 + 1000000000
    ring
  · show n * 1000000000 ≤ (n + 1) * 1000000000
    omega
  · intro p st nowMillis nowRfc task
    by_cases hlt : task.Tries + 1 < maxRetries <;>
      simp [startWorkerIter, decode, ProcessTask, TaskOutcome.erred, hlt]
  · intro p st nowMillis nowRfc task hup
    simp [paymentWorkerIter, PaymentProcessor.IsUp, hup, decode, ProcessTask, TaskOutcome.erred]

/-- C6 witness: the amended theorem applied at attempt 1 and a concrete
UP processor. -/
theorem backoff_linear_monotone_witness :
    PaymentProcessor.up ⟨"d", "f", true⟩ = true ∧
      (paymentWorkerIter ⟨"d", "f", true⟩ ⟨[], []⟩ 0 "t" .transportError
          (.wellFormed ⟨"c1", "", 5, false, 0⟩)).waitNanos = paymentWorkerFixedWaitNanos :=
  ⟨by decide,
    (backoff_linear_monotone 1).2.2.2 ⟨"d", "f", true⟩ ⟨[], []⟩ 0 "t" ⟨"c1", "", 5, false, 0⟩
      (by decide)⟩

/-- C7 counterexample: one failed delivery attempt pushes the task back
onto the shared Admission Queue: starting from a queue holding the
failing task and one other element, the cycle ends with the failed task
re-enqueued behind the other element on the same shared queue. -/
theorem retry_reenters_queue_cx :
    (paymentWorkerQueueStep ⟨"d", "f", true⟩ ⟨[], []⟩ 0 "t" (.resp 500)
        [.wellFormed ⟨"c1", "", 5, false, 0⟩, .malformed "other"]).2.2 =
      [.malformed "other", .wellFormed ⟨"c1", "", 5, false, 0⟩] := by decide

/-- C7 (amended): a failed delivery attempt re-enters the shared
Admission Queue: the wired StartPaymentWorker pushes the original bytes
back onto the same queue whenever ProcessTask errs, and the StartWorker
variant likewise re-enqueues the re-marshalled task while Tries is below
maxRetries; retrying is implemented by resubmission to the shared queue,
not by a local in-place loop. -/
theorem failed_attempt_reenters_shared_queue (p : PaymentProcessor) (st : Store)
    (nowMillis : Int) (nowRfc : String) (response : HttpResult) (task : ProcessPaymentTask)
    (rest : List Buff) (hup : p.up = true)
    (herr : (ProcessTask p st nowMillis nowRfc task response).outcome.erred = true) :
    (paymentWorkerQueueStep p st nowMillis nowRfc response (.wellFormed task :: rest)).2.2 =
      rest ++ [.wellFormed task] ∧
    (∀ t2 : ProcessPaymentTask,
      (ProcessTask p st nowMillis nowRfc { t2 with Tries := t2.Tries + 1 }
          response).outcome.erred = true →
      t2.Tries + 1 < maxRetries →
      (startWorkerIter p st nowMillis nowRfc response (.wellFormed t2)).outcome =
        .requeued { t2 with Tries := t2.Tries + 1 }) := by
  constructor
  · simp [paymentWorkerQueueStep, paymentWorkerIter, PaymentProcessor.IsUp, hup, decode, herr]
  · intro t2 herr2 hlt
    simp [startWorkerIter, decode, herr2, hlt]

/-- C7 witness: the amended theorem applied at a concrete failing task. -/
theorem failed_attempt_reenters_shared_queue_witness :
    PaymentProcessor.up ⟨"d", "f", true⟩ = true ∧
      (ProcessTask ⟨"d", "f", true⟩ ⟨[], []⟩ 0 "t" ⟨"c1", "", 5, false, 0⟩
          (.resp 500)).outcome.erred = true ∧
      (paymentWorkerQueueStep ⟨"d", "f", true⟩ ⟨[], []⟩ 0 "t" (.resp 500)
          [.wellFormed ⟨"c1", "", 5, false, 0⟩]).2.2 = [] ++ [.wellFormed ⟨"c1", "", 5, false, 0⟩] :=
  ⟨by decide, by decide,
    (failed_attempt_reenters_shared_queue ⟨"d", "f", true⟩ ⟨[], []⟩ 0 "t" (.resp 500)
      ⟨"c1", "", 5, false, 0⟩ [] (by decide) (by decide)).1⟩

/-- C8 counterexample: while the state is DOWN the leader probes the
fallback health endpoint, not the default one; and a transport error
during a leader refresh leaves an UP state UP and publishes nothing,
where the claim requires any transport error to set the state DOWN. -/
theorem healthCheck_cx :
    healthCheckProbeURL ⟨"http://default", "http://fallback", false⟩ =
      "http://fallback/payments/service-health" ∧
    HealthCheck ⟨"http://default", "http://fallback", true⟩ true (some true) .transportError =
      (⟨"http://default", "http://fallback", true⟩, some true) := by decide

/-- C8 (amended): in the leader role the refresh probes the health
endpoint of the currently routed provider (default while UP, fallback
while DOWN); a decoded response sets the shared state to the negation of
failing and publishes that boolean to the shared store; a transport or
decode error makes no update at all, leaving the previous state and the
published value unchanged. -/
theorem healthCheck_leader_behavior (p : PaymentProcessor) (cached : Option Bool)
    (failing : Bool) :
    HealthCheck p true cached (.ok failing) = (p.SetUp (!failing), some (!failing)) ∧
    HealthCheck p true cached .transportError = (p, cached) ∧
    HealthCheck p true cached .decodeError = (p, cached) ∧
    healthCheckProbeURL p = baseURL p ++ "/payments/service-health" ∧
    (p.up = true → healthCheckProbeURL p = p.defaultURL ++ "/payments/service-health") ∧
    (p.up = false → healthCheckProbeURL p = p.fallbackURL ++ "/payments/service-health") := by
  refine ⟨rfl, rfl, rfl, rfl, ?_, ?_⟩
  · intro h; simp [healthCheckProbeURL, baseURL, PaymentProcessor.IsUp, h]
  · intro h; simp [healthCheckProbeURL, baseURL, PaymentProcessor.IsUp, h]

/-- C8 witness: the amended theorem applied at a concrete UP processor. -/
theorem healthCheck_leader_behavior_witness :
    PaymentProcessor.up ⟨"http://d", "http://f", true⟩ = true ∧
      healthCheckProbeURL ⟨"http://d", "http://f", true⟩ =
        PaymentProcessor.defaultURL ⟨"http://d", "http://f", true⟩ ++ "/payments/service-health" :=
  ⟨by decide,
    (healthCheck_leader_behavior ⟨"http://d", "http://f", true⟩ none true).2.2.2.2.1 (by decide)⟩

/-- C9 counterexample: a dequeued payload that fails to decode makes the
worker panic (in both worker variants), terminating the process, where
the claim requires the task to be dropped with the worker continuing. -/
theorem malformed_panics_cx :
    (paymentWorkerIter ⟨"d", "f", true⟩ ⟨[], []⟩ 0 "t" (.resp 200)
        (.malformed "junk")).outcome = .panicked ∧
    (startWorkerIter ⟨"d", "f", true⟩ ⟨[], []⟩ 0 "t" (.resp 200)
        (.malformed "junk")).outcome = .panicked := by decide

/-- C9 (amended): a dequeued task whose payload fails to decode is logged
and then makes the worker panic, which terminates the process; the task
is never retried. This holds for the wired StartPaymentWorker (when the
health gate lets the task through) and unconditionally for the
StartWorker variant. -/
theorem malformed_payload_panics (p : PaymentProcessor) (st : Store) (nowMillis : Int)
    (nowRfc : String) (response : HttpResult) (raw : String) (hup : p.up = true) :
    paymentWorkerIter p st nowMillis nowRfc response (.malformed raw) =
      ⟨.panicked, p, st, [], 0⟩ ∧
    startWorkerIter p st nowMillis nowRfc response (.malformed raw) = ⟨.panicked, p, st, 0⟩ := by
  constructor
  · simp [paymentWorkerIter, PaymentProcessor.IsUp, hup, decode]
  · simp [startWorkerIter, decode]

/-- C9 witness: the amended theorem applied at a concrete UP processor. -/
theorem malformed_payload_panics_witness :
    PaymentProcessor.up ⟨"d", "f", true⟩ = true ∧
      paymentWorkerIter ⟨"d", "f", true⟩ ⟨[], []⟩ 0 "t" (.resp 200) (.malformed "junk") =
        ⟨.panicked, ⟨"d", "f", true⟩, ⟨[], []⟩, [], 0⟩ :=
  ⟨by decide,
    (malformed_payload_panics ⟨"d", "f", true⟩ ⟨[], []⟩ 0 "t" (.resp 200) "junk" (by decide)).1⟩

theorem lookupKey_setKey_self (l : List (String × α)) (k : String) (v : α) :
    lookupKey (setKey l k v) k = some v := by
  induction l with
  | nil => simp [setKey, lookupKey]
  | cons e rest ih =>
      obtain ⟨k0, v0⟩ := e
      by_cases h : k0 = k
      · simp [setKey, h, lookupKey]
      · simp [setKey, h, lookupKey, ih]

theorem setKey_cons_eq (k : String) (v0 v : α) (rest : List (String × α)) :
    setKey ((k, v0) :: rest) k v = (k, v) :: rest := by
  simp [setKey]

theorem setKey_cons_ne (k0 k : String) (v0 v : α) (rest : List (String × α)) (h : k0 ≠ k) :
    setKey ((k0, v0) :: rest) k v = (k0, v0) :: setKey rest k v := by
  simp [setKey, h]

theorem countP_setKey_self (l : List (String × α)) (k : String) (v : α)
    (hnd : (l.map Prod.fst).Nodup) :
    (setKey l k v).countP (fun e => e.1 == k) = 1 := by
  induction l with
  | nil => simp [setKey, List.countP_cons]
  | cons e rest ih =>
      obtain ⟨k0, v0⟩ := e
      rw [List.map_cons, List.nodup_cons] at hnd
      by_cases h : k0 = k
      · subst h
        have hz : rest.countP (fun e => e.1 == k0) = 0 := by
          rw [List.countP_eq_zero]
          intro a ha
          simp only [beq_iff_eq]
          intro hak
          have hmem : a.1 ∈ rest.map Prod.fst := List.mem_map_of_mem Prod.fst ha
          rw [hak] at hmem
          exact hnd.1 hmem
        rw [setKey_cons_eq]
        simp [List.countP_cons, hz]
      · rw [setKey_cons_ne _ _ _ _ _ h]
        simp [List.countP_cons, h, ih hnd.2]

theorem mem_map_fst_setKey (l : List (String × α)) (k a : String) (v : α)
    (h : a ∈ (setKey l k v).map Prod.fst) : a = k ∨ a ∈ l.map Prod.fst := by
  induction l with
  | nil =>
      simp [setKey] at h
      exact Or.inl h
  | cons e rest ih =>
      obtain ⟨k0, v0⟩ := e
      by_cases hk : k0 = k
      · subst hk
        rw [setKey_cons_eq, List.map_cons, List.mem_cons] at h
        rcases h with h | h
        · exact Or.inl h
        · right
          rw [List.map_cons, List.mem_cons]
          exact Or.inr h
      · rw [setKey_cons_ne _ _ _ _ _ hk, List.map_cons, List.mem_cons] at h
        rcases h with h | h
        · right
          rw [List.map_cons, List.mem_cons]
          exact Or.inl h
        · rcases ih h with h1 | h1
          · exact Or.inl h1
          · right
            rw [List.map_cons, List.mem_cons]
            exact Or.inr h1

theorem nodup_map_fst_setKey (l : List (String × α)) (k : String) (v : α)
    (hnd : (l.map Prod.fst).Nodup) : ((setKey l k v).map Prod.fst).Nodup := by
  induction l with
  | nil => simp [setKey]
  | cons e rest ih =>
      obtain ⟨k0, v0⟩ := e
      rw [List.map_cons, List.nodup_cons] at hnd
      by_cases hk : k0 = k
      · subst hk
        rw [setKey_cons_eq, List.map_cons, List.nodup_cons]
        exact hnd
      · rw [setKey_cons_ne _ _ _ _ _ hk, List.map_cons, List.nodup_cons]
        refine ⟨?_, ih hnd.2⟩
        intro hmem
        rcases mem_map_fst_setKey rest k k0 v hmem with h1 | h1
        · exact hk h1
        · exact hnd.1 h1

/-- One call of savePayment as the worker issues it: the processor state
at save time, the UnixMilli timestamp, and the payload. -/
structure SaveCall where
  p : PaymentProcessor
  nowMillis : Int
  payload : ProcessPaymentTask
deriving DecidableEq, Repr

/-- A sequence of successful savePayment calls applied in order. -/
def runSaves (st : Store) (calls : List SaveCall) : Store :=
  calls.foldl (fun s c => savePayment c.p c.nowMillis c.payload s) st

theorem savePayment_single (p : PaymentProcessor) (nowMillis : Int)
    (payload : ProcessPaymentTask) (st : Store)
    (hkv : (st.kv.map Prod.fst).Nodup) (hz : (st.zset.map Prod.fst).Nodup) :
    (((savePayment p nowMillis payload st).kv.map Prod.fst).Nodup) ∧
    (((savePayment p nowMillis payload st).zset.map Prod.fst).Nodup) ∧
    (savePayment p nowMillis payload st).kv.countP
      (fun e => e.1 == getPaymentKey payload.CorrelationId) = 1 ∧
    (savePayment p nowMillis payload st).zset.countP
      (fun e => e.1 == getPaymentKey payload.CorrelationId) = 1 ∧
    lookupKey (savePayment p nowMillis payload st).kv (getPaymentKey payload.CorrelationId) =
      some { payload with OnDefault := p.IsUp } ∧
    lookupKey (savePayment p nowMillis payload st).zset (getPaymentKey payload.CorrelationId) =
      some nowMillis := by
  refine ⟨?_, ?_, ?_, ?_, ?_, ?_⟩
  · exact nodup_map_fst_setKey _ _ _ hkv
  · exact nodup_map_fst_setKey _ _ _ hz
  · exact countP_setKey_self _ _ _ hkv
  · exact countP_setKey_self _ _ _ hz
  · exact lookupKey_setKey_self _ _ _
  · exact lookupKey_setKey_self _ _ _

/-- C10: persistence is idempotent per correlation id: starting from a
store whose key sets are duplicate-free, after any sequence of successful
savePayment calls sharing one correlationId the store holds exactly one
PaymentRecord, under the single key payments: followed by the
correlationId, and exactly one Summary Index entry whose member is that
key; the record value is the last written payload (with OnDefault stamped
from the processor at that write) and the index score is the last written
timestamp, so later writes overwrite rather than duplicate. -/
theorem savePayment_idempotent_per_cid (st : Store) (cid : String) (init : List SaveCall)
    (lastCall : SaveCall)
    (hkv : (st.kv.map Prod.fst).Nodup) (hz : (st.zset.map Prod.fst).Nodup)
    (hcid : ∀ c ∈ init ++ [lastCall], c.payload.CorrelationId = cid) :
    (runSaves st (init ++ [lastCall])).kv.countP (fun e => e.1 == getPaymentKey cid) = 1 ∧
    (runSaves st (init ++ [lastCall])).zset.countP (fun e => e.1 == getPaymentKey cid) = 1 ∧
    lookupKey (runSaves st (init ++ [lastCall])).kv (getPaymentKey cid) =
      some { lastCall.payload with OnDefault := lastCall.p.IsUp } ∧
    lookupKey (runSaves st (init ++ [lastCall])).zset (getPaymentKey cid) =
      some lastCall.nowMillis := by
  induction init generalizing st with
  | nil =>
      have hc : lastCall.payload.CorrelationId = cid := hcid lastCall (by simp)
      have h1 := savePayment_single lastCall.p lastCall.nowMillis lastCall.payload st hkv hz
      rw [← hc]
      simpa [runSaves] using ⟨h1.2.2.1, h1.2.2.2.1, h1.2.2.2.2.1, h1.2.2.2.2.2⟩
  | cons c rest ih =>
      have h1 := savePayment_single c.p c.nowMillis c.payload st hkv hz
      have hstep :
          runSaves st ((c :: rest) ++ [lastCall]) =
            runSaves (savePayment c.p c.nowMillis c.payload st) (rest ++ [lastCall]) := by
        simp [runSaves]
      rw [hstep]
      exact ih (savePayment c.p c.nowMillis c.payload st) h1.1 h1.2.1
        (fun c2 h2 => hcid c2 (List.mem_cons_of_mem c h2))

/-- C10 witness: two saves for the same correlation id into an empty
store, the second with a different amount, timestamp and health state. -/
theorem savePayment_idempotent_per_cid_witness :
    (((Store.mk [] []).kv.map Prod.fst).Nodup) ∧
      (((Store.mk [] []).zset.map Prod.fst).Nodup) ∧
      (∀ c ∈ [SaveCall.mk ⟨"d", "f", true⟩ 10 ⟨"abc", "t1", 5, false, 0⟩] ++
          [SaveCall.mk ⟨"d", "f", false⟩ 20 ⟨"abc", "t2", 7, false, 0⟩],
        c.payload.CorrelationId = "abc") ∧
      ((runSaves (Store.mk [] [])
            ([SaveCall.mk ⟨"d", "f", true⟩ 10 ⟨"abc", "t1", 5, false, 0⟩] ++
              [SaveCall.mk ⟨"d", "f", false⟩ 20 ⟨"abc", "t2", 7, false, 0⟩])).kv.countP
          (fun e => e.1 == getPaymentKey "abc") = 1 ∧
        (runSaves (Store.mk [] [])
            ([SaveCall.mk ⟨"d", "f", true⟩ 10 ⟨"abc", "t1", 5, false, 0⟩] ++
              [SaveCall.mk ⟨"d", "f", false⟩ 20 ⟨"abc", "t2", 7, false, 0⟩])).zset.countP
          (fun e => e.1 == getPaymentKey "abc") = 1 ∧
        lookupKey
            (runSaves (Store.mk [] [])
              ([SaveCall.mk ⟨"d", "f", true⟩ 10 ⟨"abc", "t1", 5, false, 0⟩] ++
                [SaveCall.mk ⟨"d", "f", false⟩ 20 ⟨"abc", "t2", 7, false, 0⟩])).kv
            (getPaymentKey "abc") =
          some { ProcessPaymentTask.mk "abc" "t2" 7 false 0 with
                  OnDefault := PaymentProcessor.IsUp ⟨"d", "f", false⟩ } ∧
        lookupKey
            (runSaves (Store.mk [] [])
              ([SaveCall.mk ⟨"d", "f", true⟩ 10 ⟨"abc", "t1", 5, false, 0⟩] ++
                [SaveCall.mk ⟨"d", "f", false⟩ 20 ⟨"abc", "t2", 7, false, 0⟩])).zset
            (getPaymentKey "abc") = some 20) :=
  ⟨by decide, by decide, by decide,
    savePayment_idempotent_per_cid (Store.mk [] []) "abc"
      [SaveCall.mk ⟨"d", "f", true⟩ 10 ⟨"abc", "t1", 5, false, 0⟩]
      (SaveCall.mk ⟨"d", "f", false⟩ 20 ⟨"abc", "t2", 7, false, 0⟩)
      (by decide) (by decide) (by decide)⟩

theorem foldl_summaryStep_defReq (rs : List (Option ProcessPaymentTask))
    (acc : PaymentsSummaryResponse) :
    (rs.foldl summaryStep acc).Default.TotalRequests =
      acc.Default.TotalRequests + ((rs.filterMap id).filter (fun r => r.OnDefault)).length := by
  induction rs generalizing acc with
  | nil => simp
  | cons r t ih =>
      cases r with
      | none => simp [summaryStep, ih]
      | some payment =>
          by_cases hd : payment.OnDefault <;> simp [summaryStep, hd, ih] <;> omega

theorem foldl_summaryStep_defAmt (rs : List (Option ProcessPaymentTask))
    (acc : PaymentsSummaryResponse) :
    (rs.foldl summaryStep acc).Default.TotalAmount =
      acc.Default.TotalAmount +
        (((rs.filterMap id).filter (fun r => r.OnDefault)).map (fun r => r.Amount)).sum := by
  induction rs generalizing acc with
  | nil => simp
  | cons r t ih =>
      cases r with
      | none => simp [summaryStep, ih]
      | some payment =>
          by_cases hd : payment.OnDefault <;> simp [summaryStep, hd, ih] <;> ring

theorem foldl_summaryStep_fbReq (rs : List (Option ProcessPaymentTask))
    (acc : PaymentsSummaryResponse) :
    (rs.foldl summaryStep acc).Fallback.TotalRequests =
      acc.Fallback.TotalRequests + ((rs.filterMap id).filter (fun r => !r.OnDefault)).length := by
  induction rs generalizing acc with
  | nil => simp
  | cons r t ih =>
      cases r with
      | none => simp [summaryStep, ih]
      | some payment =>
          by_cases hd : payment.OnDefault <;> simp [summaryStep, hd, ih] <;> omega

theorem foldl_summaryStep_fbAmt (rs : List (Option ProcessPaymentTask))
    (acc : PaymentsSummaryResponse) :
    (rs.foldl summaryStep acc).Fallback.TotalAmount =
      acc.Fallback.TotalAmount +
        (((rs.filterMap id).filter (fun r => !r.OnDefault)).map (fun r => r.Amount)).sum := by
  induction rs generalizing acc with
  | nil => simp
  | cons r t ih =>
      cases r with
      | none => simp [summaryStep, ih]
      | some payment =>
          by_cases hd : payment.OnDefault <;> simp [summaryStep, hd, ih] <;> ring

theorem roundTo1_zero : roundTo1 0 = 0 := by
  norm_num [roundTo1, mathRound]

/-- C1: SummaryPayments agrees with the manual fold the spec describes:
for every store and window, each of default and fallback gets a count and
a total equal to folding exactly the records whose indexed score lies in
the inclusive window, with each total rounded to one decimal place; an
empty result set yields the zero response rather than an error. -/
theorem summaryPayments_eq_manual_fold (st : Store) (fromS toS : Int) :
    SummaryPayments st fromS toS = specSummarize st fromS toS := by
  have hperm :
      List.Perm
        (List.insertionSort (fun a b => a.2 ≤ b.2) (st.zset.filter (scoreInRange fromS toS)))
        (st.zset.filter (scoreInRange fromS toS)) :=
    List.perm_insertionSort _ _
  have hrecs :
      List.Perm
        ((List.insertionSort (fun a b => a.2 ≤ b.2)
          (st.zset.filter (scoreInRange fromS toS))).filterMap (fun e => lookupKey st.kv e.1))
        (specWindowRecords st fromS toS) :=
    hperm.filterMap _
  by_cases hkeys : zrangebyscore st.zset fromS toS = []
  · have hsorted :
        List.insertionSort (fun a b => a.2 ≤ b.2) (st.zset.filter (scoreInRange fromS toS)) =
          [] :=
      List.map_eq_nil_iff.mp hkeys
    rw [hsorted] at hrecs
    simp only [List.filterMap_nil] at hrecs
    have hrecsnil : specWindowRecords st fromS toS = [] := hrecs.symm.eq_nil
    simp only [SummaryPayments, specSummarize, hkeys, if_true, hrecsnil, List.filter_nil,
      List.length_nil, List.map_nil, List.sum_nil, roundTo1_zero, zeroSummaryResponse]
  · have hmain :
        List.Perm (((zrangebyscore st.zset fromS toS).map (lookupKey st.kv)).filterMap id)
          (specWindowRecords st fromS toS) := by
      rw [zrangebyscore, List.map_map, List.filterMap_map]
      simpa [Function.comp] using hrecs
    have hcntD := (hmain.filter (fun r => r.OnDefault)).length_eq
    have hcntF := (hmain.filter (fun r => !r.OnDefault)).length_eq
    have hamtD := ((hmain.filter (fun r => r.OnDefault)).map (fun r => r.Amount)).sum_eq
    have hamtF := ((hmain.filter (fun r => !r.OnDefault)).map (fun r => r.Amount)).sum_eq
    simp only [SummaryPayments, specSummarize, hkeys, if_false]
    rw [foldl_summaryStep_defReq, foldl_summaryStep_defAmt, foldl_summaryStep_fbReq,
      foldl_summaryStep_fbAmt]
    simp only [zeroSummaryResponse, zero_add]
    rw [hcntD, hcntF, hamtD, hamtF]

end PaymentRinha
